/-
Verification of the Pandar40 raw-data decoding core
(src/pandar_pointcloud/src/lib/rawdata.cc, namespace pandar_rawdata).

The byte-level parser is embedded over `Nat` (machine bytes are masked with
% 256, mirroring the & 0xff masks of the source).  The floating-point
geometry of the point corrector is embedded over `Real`; the quiet-NaN
marker used by the source for invalid points is modelled by an
`Option (Real × Real × Real)` coordinate field, `none` standing for the
all-NaN coordinates (the source always sets all three coordinates to NaN
together and tests them together with pcl_isnan).
-/
import Mathlib

/-- Modelled from the spec: the layout constants live in the header
pandar_pointcloud/rawdata.h, which is not part of the sources given.
Values follow section 6 of the spec: per block a 2-byte start-of-block
marker plus a 2-byte azimuth. -/
def SOB_ANGLE_SIZE : ℕ := 4

/-- Modelled from the spec: a measurement is a 3-byte range plus a 2-byte
reflectivity. -/
def RAW_MEASURE_SIZE : ℕ := 5

/-- Modelled from the spec: number of laser channels; the source comment
in parseRawData reads "40x measures". -/
def LASER_COUNT : ℕ := 40

/-- Modelled from the spec: blocks per packet; the source comment in
parseRawData reads "6x BLOCKs". -/
def BLOCKS_PER_PACKET : ℕ := 6

/-- Modelled from the spec: the fixed reserved-byte region between the
blocks and the revolution counter (8 bytes on the Pandar40). -/
def RESERVE_SIZE : ℕ := 8

/-- Modelled from the spec: the revolution counter is 2 bytes. -/
def REVOLUTION_SIZE : ℕ := 2

/-- Modelled from the spec: the timestamp is 4 bytes. -/
def TIMESTAMP_SIZE : ℕ := 4

/-- Modelled from the spec: the factory identifier is 2 bytes. -/
def FACTORY_ID_SIZE : ℕ := 2

/-- Modelled from the spec: wire size of one packet,
block count x (4 + laser_count x 5) + reserved + revolution(2)
+ timestamp(4) + factory(2), section 6 of the spec. -/
def PACKET_SIZE : ℕ :=
  BLOCKS_PER_PACKET * (SOB_ANGLE_SIZE + LASER_COUNT * RAW_MEASURE_SIZE)
    + RESERVE_SIZE + REVOLUTION_SIZE + TIMESTAMP_SIZE + FACTORY_ID_SIZE

/-- Modelled from the spec: number of representable azimuth units in one
revolution (36000 units at 0.01 degree resolution). -/
def ROTATION_MAX_UNITS : ℕ := 36000

/-- One raw measurement: 24-bit range (2 mm units) and 16-bit
reflectivity, as decoded by parseRawData. -/
structure raw_measure_t where
  range : ℕ
  reflectivity : ℕ
deriving DecidableEq, Inhabited, Repr

/-- One raw block: start-of-block marker, azimuth in 0.01 degree units,
and one measurement per laser channel. -/
structure raw_block_t where
  sob : ℕ
  azimuth : ℕ
  measures : List raw_measure_t
deriving DecidableEq, Inhabited, Repr

/-- One raw packet, as filled in by parseRawData. -/
structure raw_packet_t where
  blocks : List raw_block_t
  revolution : ℕ
  timestamp : ℕ
  factory : ℕ × ℕ
deriving DecidableEq, Inhabited, Repr

/-- Little-endian 16-bit read, modelling
(buf[i] & 0xff) | ((buf[i+1] & 0xff) << 8).  The buffer is a function
from byte index to byte value; masking with % 256 models & 0xff. -/
def LE16 (buf : ℕ → ℕ) (i : ℕ) : ℕ :=
  (buf i % 256) ||| ((buf (i + 1) % 256) <<< 8)

/-- Little-endian 24-bit read, modelling the three-byte range read of
parseRawData. -/
def LE24 (buf : ℕ → ℕ) (i : ℕ) : ℕ :=
  (buf i % 256) ||| ((buf (i + 1) % 256) <<< 8) ||| ((buf (i + 2) % 256) <<< 16)

/-- Little-endian 32-bit read, modelling the four-byte timestamp read of
parseRawData. -/
def LE32 (buf : ℕ → ℕ) (i : ℕ) : ℕ :=
  (buf i % 256) ||| ((buf (i + 1) % 256) <<< 8)
    ||| ((buf (i + 2) % 256) <<< 16) ||| ((buf (i + 3) % 256) <<< 24)

/-- The two field reads of one measurement in parseRawData: a 3-byte
range at the running index and a 2-byte reflectivity right after it. -/
def readMeasure (buf : ℕ → ℕ) (idx : ℕ) : raw_measure_t :=
  { range := LE24 buf idx, reflectivity := LE16 buf (idx + 3) }

/-- The in-place filtering of parseRawData: the sentinel pair
(0x010101, 0x0101) and any range above 200 * 1000 / 2 units are zeroed. -/
def filterMeasure (m : raw_measure_t) : raw_measure_t :=
  if (m.range = 0x010101 ∧ m.reflectivity = 0x0101) ∨ m.range > 200 * 1000 / 2 then
    { range := 0, reflectivity := 0 }
  else m

/-- The inner loop of parseRawData: reads n measurements starting at the
running index idx, advancing by RAW_MEASURE_SIZE each time, filtering
each measurement as it is stored. -/
def measuresLoop (buf : ℕ → ℕ) (idx : ℕ) : ℕ → List raw_measure_t
  | 0 => []
  | n + 1 =>
      filterMeasure (readMeasure buf idx)
        :: measuresLoop buf (idx + RAW_MEASURE_SIZE) n

/-- One block as read by parseRawData at running index idx: 2-byte sob,
2-byte azimuth, then the per-laser measurements. -/
def mkBlock (buf : ℕ → ℕ) (idx : ℕ) : raw_block_t :=
  { sob := LE16 buf idx
    azimuth := LE16 buf (idx + 2)
    measures := measuresLoop buf (idx + SOB_ANGLE_SIZE) LASER_COUNT }

/-- The outer loop of parseRawData: reads n blocks, the running index
advancing by the size of one block each time. -/
def blocksLoop (buf : ℕ → ℕ) (idx : ℕ) : ℕ → List raw_block_t
  | 0 => []
  | n + 1 =>
      mkBlock buf idx
        :: blocksLoop buf (idx + SOB_ANGLE_SIZE + LASER_COUNT * RAW_MEASURE_SIZE) n

/-- RawData::parseRawData.  Returns none (the -1 error return of the
source) when the length differs from PACKET_SIZE, without producing any
packet; otherwise decodes the six blocks, skips the reserved region and
reads revolution, timestamp and the two factory bytes. -/
def parseRawData (buf : ℕ → ℕ) (len : ℕ) : Option raw_packet_t :=
  if len ≠ PACKET_SIZE then none
  else
    let afterBlocks := BLOCKS_PER_PACKET * (SOB_ANGLE_SIZE + LASER_COUNT * RAW_MEASURE_SIZE)
    let revIdx := afterBlocks + RESERVE_SIZE
    let tsIdx := revIdx + REVOLUTION_SIZE
    let facIdx := tsIdx + TIMESTAMP_SIZE
    some
      { blocks := blocksLoop buf 0 BLOCKS_PER_PACKET
        revolution := LE16 buf revIdx
        timestamp := LE32 buf tsIdx
        factory := (buf facIdx % 256, buf (facIdx + 1) % 256) }

lemma measuresLoop_eq (buf : ℕ → ℕ) :
    ∀ (n idx : ℕ), measuresLoop buf idx n =
      (List.range n).map fun j => filterMeasure (readMeasure buf (idx + RAW_MEASURE_SIZE * j)) := by
  intro n
  induction n with
  | zero => intro idx; simp [measuresLoop]
  | succ n ih =>
      intro idx
      rw [measuresLoop, ih (idx + RAW_MEASURE_SIZE), List.range_succ_eq_map]
      simp only [List.map_cons, List.map_map, Nat.mul_zero, Nat.add_zero]
      refine congrArg₂ _ rfl (List.map_congr_left ?_)
      intro j _
      simp only [Function.comp_apply]
      have h : idx + RAW_MEASURE_SIZE + RAW_MEASURE_SIZE * j
          = idx + RAW_MEASURE_SIZE * (j + 1) := by ring
      rw [h]

lemma blocksLoop_eq (buf : ℕ → ℕ) :
    ∀ (n idx : ℕ), blocksLoop buf idx n =
      (List.range n).map fun i =>
        mkBlock buf (idx + (SOB_ANGLE_SIZE + LASER_COUNT * RAW_MEASURE_SIZE) * i) := by
  intro n
  induction n with
  | zero => intro idx; simp [blocksLoop]
  | succ n ih =>
      intro idx
      rw [blocksLoop, ih, List.range_succ_eq_map]
      simp only [List.map_cons, List.map_map, Nat.mul_zero, Nat.add_zero]
      refine congrArg₂ _ rfl (List.map_congr_left ?_)
      intro i _
      simp only [Function.comp_apply]
      have h : idx + SOB_ANGLE_SIZE + LASER_COUNT * RAW_MEASURE_SIZE
            + (SOB_ANGLE_SIZE + LASER_COUNT * RAW_MEASURE_SIZE) * i
          = idx + (SOB_ANGLE_SIZE + LASER_COUNT * RAW_MEASURE_SIZE) * (i + 1) := by ring
      rw [h]

/-- Closed form of parseRawData on a buffer of the correct wire size:
every field named with its absolute byte offset. -/
lemma parseRawData_eq (buf : ℕ → ℕ) :
    parseRawData buf PACKET_SIZE = some
      { blocks := (List.range 6).map fun i =>
          { sob := LE16 buf (204 * i)
            azimuth := LE16 buf (204 * i + 2)
            measures := (List.range 40).map fun j =>
              filterMeasure
                { range := LE24 buf (204 * i + 4 + 5 * j)
                  reflectivity := LE16 buf (204 * i + 4 + 5 * j + 3) } }
        revolution := LE16 buf 1232
        timestamp := LE32 buf 1234
        factory := (buf 1238 % 256, buf 1239 % 256) } := by
  rw [parseRawData, if_neg (by simp)]
  rw [blocksLoop_eq]
  simp only [SOB_ANGLE_SIZE, LASER_COUNT, RAW_MEASURE_SIZE, BLOCKS_PER_PACKET,
    RESERVE_SIZE, REVOLUTION_SIZE, TIMESTAMP_SIZE, mkBlock, measuresLoop_eq,
    readMeasure, Nat.zero_add]

/-- Per-laser calibration entry, the fields of
pandar_pointcloud::PandarLaserCorrection that rawdata.cc reads. -/
structure PandarLaserCorrection where
  azimuthCorrection : ℝ
  distanceCorrection : ℝ
  cosVertCorrection : ℝ
  sinVertCorrection : ℝ
  verticalOffsetCorrection : ℝ
  horizontalOffsetCorrection : ℝ
deriving Inhabited

/-- The Config struct of RawData, the fields written by setParameters
and read by computeXYZIR.  The calibration file path is omitted (pure
I/O configuration, not touched by the decoding logic). -/
structure Config where
  min_range : ℝ
  max_range : ℝ
  tmp_min_angle : ℝ
  tmp_max_angle : ℝ
  min_angle : ℤ
  max_angle : ℤ

/-- The state of a RawData object after setup: its Config, the two
36000-entry trigonometric lookup arrays (modelled as total functions on
the index, since the source indexes them with an unchecked int), and the
calibration entries. -/
structure RawDataState where
  config : Config
  cos_lookup_table : ℕ → ℝ
  sin_lookup_table : ℕ → ℝ
  laser_corrections : List PandarLaserCorrection

/-- An output point.  coords = none models the all-NaN coordinates the
source writes for invalid points; the source never writes NaN to a
single coordinate alone. -/
structure PPoint where
  coords : Option (ℝ × ℝ × ℝ)
  intensity : ℕ
  ring : ℕ

/-- angles::from_degrees: degrees to radians. -/
noncomputable def fromDegrees (d : ℝ) : ℝ := d * Real.pi / 180

/-- RawData::computeXYZIR.  Mirrors the source statement by statement:
distance conversion, intensity, range-window test, azimuth trigonometry
(lookup table when azimuthCorrection is zero, direct cosine and sine
otherwise), distance correction, projection, and the origin sentinel. -/
noncomputable def computeXYZIR (s : RawDataState) (azimuth : ℕ)
    (laserReturn : raw_measure_t) (correction : PandarLaserCorrection) : PPoint :=
  let distanceM : ℝ := (laserReturn.range : ℝ) * 0.002
  let intensity : ℕ := laserReturn.reflectivity >>> 8
  if distanceM < s.config.min_range ∨ distanceM > s.config.max_range then
    { coords := none, intensity := intensity, ring := 0 }
  else
    let ca : ℝ × ℝ :=
      if correction.azimuthCorrection = 0 then
        (s.cos_lookup_table azimuth, s.sin_lookup_table azimuth)
      else
        let azimuthInRadians :=
          fromDegrees ((azimuth : ℝ) / 100 + correction.azimuthCorrection)
        (Real.cos azimuthInRadians, Real.sin azimuthInRadians)
    let cos_azimuth := ca.1
    let sin_azimuth := ca.2
    let distanceM2 := distanceM + correction.distanceCorrection
    let xyDistance := distanceM2 * correction.cosVertCorrection
    let x := xyDistance * sin_azimuth - correction.horizontalOffsetCorrection * cos_azimuth
    let y := xyDistance * cos_azimuth + correction.horizontalOffsetCorrection * sin_azimuth
    let z := distanceM2 * correction.sinVertCorrection + correction.verticalOffsetCorrection
    if x = 0 ∧ y = 0 ∧ z = 0 then
      { coords := none, intensity := intensity, ring := 0 }
    else
      { coords := some (x, y, z), intensity := intensity, ring := 0 }

/-- The Cartesian coordinates computed by the else branch of
computeXYZIR (steps 4 to 7 of the corrector), named so that the origin
sentinel can be spoken about. -/
noncomputable def pointXYZ (s : RawDataState) (azimuth : ℕ)
    (laserReturn : raw_measure_t) (correction : PandarLaserCorrection) : ℝ × ℝ × ℝ :=
  let distanceM : ℝ := (laserReturn.range : ℝ) * 0.002
  let ca : ℝ × ℝ :=
    if correction.azimuthCorrection = 0 then
      (s.cos_lookup_table azimuth, s.sin_lookup_table azimuth)
    else
      let azimuthInRadians :=
        fromDegrees ((azimuth : ℝ) / 100 + correction.azimuthCorrection)
      (Real.cos azimuthInRadians, Real.sin azimuthInRadians)
  let cos_azimuth := ca.1
  let sin_azimuth := ca.2
  let distanceM2 := distanceM + correction.distanceCorrection
  let xyDistance := distanceM2 * correction.cosVertCorrection
  (xyDistance * sin_azimuth - correction.horizontalOffsetCorrection * cos_azimuth,
   xyDistance * cos_azimuth + correction.horizontalOffsetCorrection * sin_azimuth,
   distanceM2 * correction.sinVertCorrection + correction.verticalOffsetCorrection)

/-- One iteration of the inner loop of RawData::toPointClouds, as an
optional point: none when the computed point has NaN coordinates (and is
skipped), otherwise the point with its ring field set to the laser
channel index. -/
noncomputable def pointOf (s : RawDataState) (azimuth : ℕ)
    (laserReturn : raw_measure_t) (correction : PandarLaserCorrection)
    (j : ℕ) : Option PPoint :=
  let xyzir := computeXYZIR s azimuth laserReturn correction
  if xyzir.coords.isNone then none
  else some { xyzir with ring := j }

/-- RawData::toPointClouds: the two nested loops over blocks and laser
channels, appending each valid point (ring set to the channel index) to
the point cloud, mirroring pc.points.push_back. -/
noncomputable def toPointClouds (s : RawDataState) (packet : raw_packet_t)
    (pc : List PPoint) : List PPoint :=
  (List.range BLOCKS_PER_PACKET).foldl (fun acc i =>
    let firing_data := packet.blocks.getD i default
    (List.range LASER_COUNT).foldl (fun acc2 j =>
      let xyzir := computeXYZIR s firing_data.azimuth
        (firing_data.measures.getD j default)
        (s.laser_corrections.getD j default)
      if xyzir.coords.isNone then acc2
      else acc2 ++ [{ xyzir with ring := j }]) acc) pc

/-- The converter contract in the words of the spec, section 4.5: for
every block, for every laser channel in channel order, invoke the point
corrector, skip NaN points, and record the channel index as ring; output
ordering block-major then channel-minor. -/
noncomputable def cloudOfPacketSpec (s : RawDataState) (packet : raw_packet_t) :
    List PPoint :=
  (List.range BLOCKS_PER_PACKET).flatMap fun i =>
    (List.range LASER_COUNT).filterMap fun j =>
      pointOf s (packet.blocks.getD i default).azimuth
        ((packet.blocks.getD i default).measures.getD j default)
        (s.laser_corrections.getD j default) j

/-- RawData::unpack.  The source declares an uninitialized local
raw_packet_t, calls parseRawData on it and then toPointClouds, ignoring
the return code of parseRawData; stale stands for the arbitrary initial
contents of that uninitialized local, which parseRawData leaves in place
on a size mismatch. -/
noncomputable def unpack (s : RawDataState) (stale : raw_packet_t)
    (buf : ℕ → ℕ) (len : ℕ) (pc : List PPoint) : List PPoint :=
  let packet := (parseRawData buf len).getD stale
  toPointClouds s packet pc

/-- Truncation toward zero, the semantics of the C double-to-int
conversion used by setParameters. -/
noncomputable def rtrunc (x : ℝ) : ℤ := if 0 ≤ x then ⌊x⌋ else ⌈x⌉

/-- C fmod: a - b * trunc(a / b). -/
noncomputable def cfmod (a b : ℝ) : ℝ := a - b * (rtrunc (a / b) : ℝ)

/-- RawData::setParameters: stores the range window and converts the
view direction and width into the hardware angle window in hundredths of
a degree, never read again by the decoding path. -/
noncomputable def setParameters (_c : Config)
    (min_range max_range view_direction view_width : ℝ) : Config :=
  let tmp_min0 := view_direction + view_width / 2
  let tmp_max0 := view_direction - view_width / 2
  let tmp_min := cfmod (cfmod tmp_min0 (2 * Real.pi) + 2 * Real.pi) (2 * Real.pi)
  let tmp_max := cfmod (cfmod tmp_max0 (2 * Real.pi) + 2 * Real.pi) (2 * Real.pi)
  let mina := rtrunc (100 * (2 * Real.pi - tmp_min) * 180 / Real.pi + 0.5)
  let maxa := rtrunc (100 * (2 * Real.pi - tmp_max) * 180 / Real.pi + 0.5)
  let pair : ℤ × ℤ := if mina = maxa then (0, 36000) else (mina, maxa)
  { min_range := min_range
    max_range := max_range
    tmp_min_angle := tmp_min
    tmp_max_angle := tmp_max
    min_angle := pair.1
    max_angle := pair.2 }

/-- The cosine table built by the setup loop: one entry per azimuth
unit, cos of angles::from_degrees(ROTATION_RESOLUTION * rot_index) with
ROTATION_RESOLUTION = 0.01 degrees. -/
noncomputable def setupCosTable : List ℝ :=
  (List.range ROTATION_MAX_UNITS).map fun i : ℕ => Real.cos (fromDegrees (0.01 * (i : ℝ)))

/-- The sine table built by the setup loop. -/
noncomputable def setupSinTable : List ℝ :=
  (List.range ROTATION_MAX_UNITS).map fun i : ℕ => Real.sin (fromDegrees (0.01 * (i : ℝ)))

/-- Pointwise agreement of the lookup tables of two states below a given
index bound. -/
def tablesAgreeBelow (s t : RawDataState) (n : ℕ) : Prop :=
  ∀ a, a < n →
    s.cos_lookup_table a = t.cos_lookup_table a ∧
    s.sin_lookup_table a = t.sin_lookup_table a

/-- The range-window test of computeXYZIR, on the uncorrected distance. -/
def outOfRange (s : RawDataState) (laserReturn : raw_measure_t) : Prop :=
  (laserReturn.range : ℝ) * 0.002 < s.config.min_range ∨
    (laserReturn.range : ℝ) * 0.002 > s.config.max_range

lemma computeXYZIR_out (s : RawDataState) (azimuth : ℕ)
    (m : raw_measure_t) (corr : PandarLaserCorrection)
    (h : outOfRange s m) :
    computeXYZIR s azimuth m corr =
      { coords := none, intensity := m.reflectivity >>> 8, ring := 0 } := by
  simp only [outOfRange] at h
  simp only [computeXYZIR]
  rw [if_pos h]

lemma computeXYZIR_in (s : RawDataState) (azimuth : ℕ)
    (m : raw_measure_t) (corr : PandarLaserCorrection)
    (h : ¬ outOfRange s m) :
    computeXYZIR s azimuth m corr =
      if pointXYZ s azimuth m corr = (0, 0, 0) then
        { coords := none, intensity := m.reflectivity >>> 8, ring := 0 }
      else
        { coords := some (pointXYZ s azimuth m corr),
          intensity := m.reflectivity >>> 8, ring := 0 } := by
  simp only [outOfRange] at h
  simp only [computeXYZIR, pointXYZ]
  rw [if_neg h]
  simp only [Prod.mk.injEq]

lemma computeXYZIR_intensity (s : RawDataState) (azimuth : ℕ)
    (m : raw_measure_t) (corr : PandarLaserCorrection) :
    (computeXYZIR s azimuth m corr).intensity = m.reflectivity >>> 8 := by
  by_cases h : outOfRange s m
  · rw [computeXYZIR_out s azimuth m corr h]
  · rw [computeXYZIR_in s azimuth m corr h]
    split <;> rfl

lemma foldl_append_filterMap {α β : Type} (f : α → Option β) :
    ∀ (l : List α) (acc : List β),
      l.foldl (fun a x => a ++ (f x).toList) acc = acc ++ l.filterMap f := by
  intro l
  induction l with
  | nil => intro acc; simp
  | cons x l ih =>
      intro acc
      rw [List.foldl_cons, ih, List.filterMap_cons]
      cases hx : f x with
      | none => simp
      | some b => simp

lemma foldl_append_flatMap {α β : Type} (g : α → List β) :
    ∀ (l : List α) (acc : List β),
      l.foldl (fun a x => a ++ g x) acc = acc ++ l.flatMap g := by
  intro l
  induction l with
  | nil => intro acc; simp
  | cons x l ih => intro acc; rw [List.foldl_cons, ih]; simp

lemma innerBody_eq (s : RawDataState) (az : ℕ) (m : raw_measure_t)
    (corr : PandarLaserCorrection) (j : ℕ) (acc : List PPoint) :
    (let xyzir := computeXYZIR s az m corr
     if xyzir.coords.isNone then acc else acc ++ [{ xyzir with ring := j }])
    = acc ++ (pointOf s az m corr j).toList := by
  simp only [pointOf]
  rcases hc : (computeXYZIR s az m corr).coords with _ | v
  · simp [hc]
  · simp [hc]

/-- The loops of toPointClouds compute exactly the spec-shaped cloud,
appended to the incoming point cloud. -/
lemma toPointClouds_eq (s : RawDataState) (packet : raw_packet_t)
    (pc : List PPoint) :
    toPointClouds s packet pc = pc ++ cloudOfPacketSpec s packet := by
  unfold toPointClouds cloudOfPacketSpec
  have hinner : ∀ (i : ℕ) (acc : List PPoint),
      (List.range LASER_COUNT).foldl (fun acc2 j =>
        let xyzir := computeXYZIR s (packet.blocks.getD i default).azimuth
          ((packet.blocks.getD i default).measures.getD j default)
          (s.laser_corrections.getD j default)
        if xyzir.coords.isNone then acc2
        else acc2 ++ [{ xyzir with ring := j }]) acc
      = acc ++ (List.range LASER_COUNT).filterMap (fun j =>
          pointOf s (packet.blocks.getD i default).azimuth
            ((packet.blocks.getD i default).measures.getD j default)
            (s.laser_corrections.getD j default) j) := by
    intro i acc
    have hfun : (fun (acc2 : List PPoint) (j : ℕ) =>
        let xyzir := computeXYZIR s (packet.blocks.getD i default).azimuth
          ((packet.blocks.getD i default).measures.getD j default)
          (s.laser_corrections.getD j default)
        if xyzir.coords.isNone then acc2
        else acc2 ++ [{ xyzir with ring := j }])
      = (fun (acc2 : List PPoint) (j : ℕ) =>
          acc2 ++ (pointOf s (packet.blocks.getD i default).azimuth
            ((packet.blocks.getD i default).measures.getD j default)
            (s.laser_corrections.getD j default) j).toList) := by
      funext acc2 j
      exact innerBody_eq s (packet.blocks.getD i default).azimuth
        ((packet.blocks.getD i default).measures.getD j default)
        (s.laser_corrections.getD j default) j acc2
    rw [hfun]
    exact foldl_append_filterMap (fun j =>
      pointOf s (packet.blocks.getD i default).azimuth
        ((packet.blocks.getD i default).measures.getD j default)
        (s.laser_corrections.getD j default) j) (List.range LASER_COUNT) acc
  have houter : (fun (acc : List PPoint) (i : ℕ) =>
      (List.range LASER_COUNT).foldl (fun acc2 j =>
        let xyzir := computeXYZIR s (packet.blocks.getD i default).azimuth
          ((packet.blocks.getD i default).measures.getD j default)
          (s.laser_corrections.getD j default)
        if xyzir.coords.isNone then acc2
        else acc2 ++ [{ xyzir with ring := j }]) acc)
    = (fun (acc : List PPoint) (i : ℕ) =>
        acc ++ (List.range LASER_COUNT).filterMap (fun j =>
          pointOf s (packet.blocks.getD i default).azimuth
            ((packet.blocks.getD i default).measures.getD j default)
            (s.laser_corrections.getD j default) j)) := by
    funext acc i
    exact hinner i acc
  rw [houter]
  exact foldl_append_flatMap (fun i =>
    (List.range LASER_COUNT).filterMap (fun j =>
      pointOf s (packet.blocks.getD i default).azimuth
        ((packet.blocks.getD i default).measures.getD j default)
        (s.laser_corrections.getD j default) j)) (List.range BLOCKS_PER_PACKET) pc

lemma getD_map_range {α : Type} (f : ℕ → α) (d : α) {n i : ℕ} (h : i < n) :
    ((List.range n).map f).getD i d = f i := by
  simp [List.getD, List.getElem?_map, List.getElem?_range h]

lemma pointOf_none_out (s : RawDataState) (az : ℕ) (m : raw_measure_t)
    (corr : PandarLaserCorrection) (j : ℕ) (h : outOfRange s m) :
    pointOf s az m corr j = none := by
  rw [pointOf, computeXYZIR_out s az m corr h]
  simp

lemma pointOf_none_origin (s : RawDataState) (az : ℕ) (m : raw_measure_t)
    (corr : PandarLaserCorrection) (j : ℕ) (h : ¬ outOfRange s m)
    (h0 : pointXYZ s az m corr = (0, 0, 0)) :
    pointOf s az m corr j = none := by
  rw [pointOf, computeXYZIR_in s az m corr h, if_pos h0]
  simp

lemma pointOf_eval (s : RawDataState) (az : ℕ) (m : raw_measure_t)
    (corr : PandarLaserCorrection) (j : ℕ) (v : ℝ × ℝ × ℝ)
    (h : ¬ outOfRange s m) (hv : pointXYZ s az m corr = v) (hnz : v ≠ (0, 0, 0)) :
    pointOf s az m corr j
      = some { coords := some v, intensity := m.reflectivity >>> 8, ring := j } := by
  rw [pointOf, computeXYZIR_in s az m corr h, hv, if_neg hnz]
  simp

/-- computeXYZIR reads its configuration only through the range window:
states agreeing on min_range, max_range and on the lookup tables produce
the same point. -/
lemma computeXYZIR_ranges_congr (s t : RawDataState)
    (hmin : s.config.min_range = t.config.min_range)
    (hmax : s.config.max_range = t.config.max_range)
    (hcos : s.cos_lookup_table = t.cos_lookup_table)
    (hsin : s.sin_lookup_table = t.sin_lookup_table) :
    ∀ (az : ℕ) (m : raw_measure_t) (corr : PandarLaserCorrection),
      computeXYZIR s az m corr = computeXYZIR t az m corr := by
  intro az m corr
  by_cases hout : outOfRange s m
  · have hout2 : outOfRange t m := by
      rw [outOfRange] at hout ⊢
      rw [← hmin, ← hmax]
      exact hout
    rw [computeXYZIR_out s az m corr hout, computeXYZIR_out t az m corr hout2]
  · have hout2 : ¬ outOfRange t m := by
      rw [outOfRange] at hout ⊢
      rw [← hmin, ← hmax]
      exact hout
    rw [computeXYZIR_in s az m corr hout, computeXYZIR_in t az m corr hout2]
    have hxyz : pointXYZ s az m corr = pointXYZ t az m corr := by
      rw [pointXYZ, pointXYZ, hcos, hsin]
    rw [hxyz]

/-- With azimuthCorrection = 0 the corrector depends on the lookup
tables only at the block azimuth index. -/
lemma computeXYZIR_table_congr (s t : RawDataState) (az : ℕ)
    (m : raw_measure_t) (corr : PandarLaserCorrection)
    (hcfg : s.config = t.config)
    (hcos : s.cos_lookup_table az = t.cos_lookup_table az)
    (hsin : s.sin_lookup_table az = t.sin_lookup_table az)
    (hz : corr.azimuthCorrection = 0) :
    computeXYZIR s az m corr = computeXYZIR t az m corr := by
  by_cases hout : outOfRange s m
  · have hout2 : outOfRange t m := by
      rw [outOfRange] at hout ⊢
      rw [← hcfg]
      exact hout
    rw [computeXYZIR_out s az m corr hout, computeXYZIR_out t az m corr hout2]
  · have hout2 : ¬ outOfRange t m := by
      rw [outOfRange] at hout ⊢
      rw [← hcfg]
      exact hout
    rw [computeXYZIR_in s az m corr hout, computeXYZIR_in t az m corr hout2]
    have hxyz : pointXYZ s az m corr = pointXYZ t az m corr := by
      rw [pointXYZ, pointXYZ, if_pos hz, if_pos hz, hcos, hsin]
    rw [hxyz]

/-- All-zero calibration entry. -/
def corrZero : PandarLaserCorrection :=
  { azimuthCorrection := 0, distanceCorrection := 0, cosVertCorrection := 0,
    sinVertCorrection := 0, verticalOffsetCorrection := 0,
    horizontalOffsetCorrection := 0 }

/-- A laser firing horizontally with no offsets: cosVertCorrection 1,
everything else 0. -/
def corrUnit : PandarLaserCorrection := { corrZero with cosVertCorrection := 1 }

/-- A laser with only a vertical offset of one metre. -/
def corrVert : PandarLaserCorrection := { corrZero with verticalOffsetCorrection := 1 }

/-- Range window [0.5 m, 100 m]. -/
def cfgHalf : Config :=
  { min_range := 0.5, max_range := 100, tmp_min_angle := 0, tmp_max_angle := 0,
    min_angle := 0, max_angle := 36000 }

/-- Range window [0 m, 100 m]: zero distance is inside the window. -/
def cfgZero : Config := { cfgHalf with min_range := 0 }

/-- A lookup table that is constantly one. -/
def tableOne : ℕ → ℝ := fun _ => 1

/-- State with the [0.5, 100] window, cosine table constantly 1, sine
table constantly 0 (their true values at azimuth 0), one laser. -/
def sHalf : RawDataState :=
  { config := cfgHalf, cos_lookup_table := tableOne,
    sin_lookup_table := fun _ => 0, laser_corrections := [corrUnit] }

/-- State with the [0, 100] window and a vertical-offset laser. -/
def sZero : RawDataState :=
  { config := cfgZero, cos_lookup_table := tableOne,
    sin_lookup_table := fun _ => 0, laser_corrections := [corrVert] }

/-- Same as sHalf except that the sine table differs at index 65535,
outside the 36000 entries the setup loop writes. -/
def sSpike : RawDataState :=
  { sHalf with sin_lookup_table := fun a => if a = 65535 then 1 else 0 }

/-- A possible content of the uninitialized raw_packet_t local of
unpack: one leftover block holding a 50 m return. -/
def stalePacket : raw_packet_t :=
  { blocks := [{ sob := 0, azimuth := 0, measures := [{ range := 25000, reflectivity := 4660 }] }],
    revolution := 0, timestamp := 0, factory := (0, 0) }

/-- The all-zero byte buffer. -/
def bufZero : ℕ → ℕ := fun _ => 0

/-- The all-ones byte buffer: every measurement in it is the sentinel
pair (0x010101, 0x0101). -/
def bufOnes : ℕ → ℕ := fun _ => 1

/-- A packet buffer whose first block carries azimuth 0xFFFF = 65535. -/
def bufAz : ℕ → ℕ := fun i => if i = 2 then 255 else if i = 3 then 255 else 0

/-- An empty packet value (every block read through the array default). -/
def pktEmpty : raw_packet_t := { blocks := [], revolution := 0, timestamp := 0, factory := (0, 0) }

/-- The point produced by a zeroed measurement under sZero and corrVert. -/
def ptV : PPoint := { coords := some (0, 0, 1), intensity := 0, ring := 0 }

lemma notout_half_25000 : ¬ outOfRange sHalf { range := 25000, reflectivity := 4660 } := by
  norm_num [outOfRange, sHalf, cfgHalf]

lemma notout_spike_25000 : ¬ outOfRange sSpike { range := 25000, reflectivity := 4660 } := by
  norm_num [outOfRange, sSpike, sHalf, cfgHalf]

lemma notout_sZero_range0 (b : ℕ) : ¬ outOfRange sZero { range := 0, reflectivity := b } := by
  norm_num [outOfRange, sZero, cfgZero, cfgHalf]

lemma xyz_half_25000 :
    pointXYZ sHalf 0 { range := 25000, reflectivity := 4660 } corrUnit = (0, 50, 0) := by
  norm_num [pointXYZ, sHalf, corrUnit, corrZero, tableOne, Prod.mk.injEq]

lemma xyz_half_65535 :
    pointXYZ sHalf 65535 { range := 25000, reflectivity := 4660 } corrUnit = (0, 50, 0) := by
  norm_num [pointXYZ, sHalf, corrUnit, corrZero, tableOne, Prod.mk.injEq]

lemma xyz_spike_65535 :
    pointXYZ sSpike 65535 { range := 25000, reflectivity := 4660 } corrUnit = (50, 50, 0) := by
  norm_num [pointXYZ, sSpike, sHalf, corrUnit, corrZero, tableOne, Prod.mk.injEq]

lemma xyz_sZero_corrZero :
    pointXYZ sZero 0 { range := 0, reflectivity := 4660 } corrZero = (0, 0, 0) := by
  norm_num [pointXYZ, sZero, corrZero, tableOne, Prod.mk.injEq]

lemma xyz_sZero_corrVert :
    pointXYZ sZero 0 { range := 0, reflectivity := 0 } corrVert = (0, 0, 1) := by
  norm_num [pointXYZ, sZero, corrVert, corrZero, tableOne, Prod.mk.injEq]

lemma filterMeasure_zero (m : raw_measure_t)
    (h : (m.range = 0x010101 ∧ m.reflectivity = 0x0101) ∨ m.range > 100000) :
    filterMeasure m = { range := 0, reflectivity := 0 } := by
  have h2 : (m.range = 0x010101 ∧ m.reflectivity = 0x0101) ∨ m.range > 200 * 1000 / 2 := by
    norm_num
    exact h
  rw [filterMeasure, if_pos h2]

/-- C6: on a buffer of the correct wire size, the parser reads, per
block, a 2-byte little-endian start-of-block marker and a 2-byte
azimuth, then per laser channel a 3-byte little-endian range and a
2-byte reflectivity; after the six blocks it skips the 8 reserved bytes
and reads the 2-byte revolution counter at offset 1232, the 4-byte
little-endian timestamp at offset 1234 and the two factory bytes at
offsets 1238 and 1239. -/
theorem C6_byte_order (buf : ℕ → ℕ) :
    parseRawData buf PACKET_SIZE = some
      { blocks := (List.range 6).map fun i =>
          { sob := LE16 buf (204 * i)
            azimuth := LE16 buf (204 * i + 2)
            measures := (List.range 40).map fun j =>
              filterMeasure
                { range := LE24 buf (204 * i + 4 + 5 * j)
                  reflectivity := LE16 buf (204 * i + 4 + 5 * j + 3) } }
        revolution := LE16 buf 1232
        timestamp := LE32 buf 1234
        factory := (buf 1238 % 256, buf 1239 % 256) } :=
  parseRawData_eq buf

/-- C3: in a correctly sized buffer, any measurement whose raw decoding
is the sentinel pair (0x010101, 0x0101), or whose raw range exceeds
100000 units, is stored in the parsed packet with both fields zero. -/
theorem C3_sentinel_zeroed (buf : ℕ → ℕ) (i j : ℕ) (hi : i < 6) (hj : j < 40)
    (h : (LE24 buf (204 * i + 4 + 5 * j) = 0x010101 ∧
            LE16 buf (204 * i + 4 + 5 * j + 3) = 0x0101) ∨
          LE24 buf (204 * i + 4 + 5 * j) > 100000) :
    ∃ p, parseRawData buf PACKET_SIZE = some p ∧
      (p.blocks.getD i default).measures.getD j default
        = { range := 0, reflectivity := 0 } := by
  refine ⟨_, parseRawData_eq buf, ?_⟩
  rw [getD_map_range _ _ hi]
  rw [getD_map_range _ _ hj]
  exact filterMeasure_zero _ h

theorem C3_sentinel_zeroed_witness :
    ∃ p, parseRawData bufOnes PACKET_SIZE = some p ∧
      (p.blocks.getD 0 default).measures.getD 0 default
        = { range := 0, reflectivity := 0 } :=
  C3_sentinel_zeroed bufOnes 0 0 (by norm_num) (by norm_num)
    (Or.inl ⟨by decide, by decide⟩)

/-- C2 as stated is false: with the window [0, 100] a zero-range
measurement passes the range test but still comes out with NaN
coordinates, through the origin sentinel. -/
theorem C2_range_window_counterexample :
    (computeXYZIR sZero 0 { range := 0, reflectivity := 4660 } corrZero).coords = none ∧
    ¬ outOfRange sZero { range := 0, reflectivity := 4660 } := by
  refine ⟨?_, notout_sZero_range0 4660⟩
  rw [computeXYZIR_in _ _ _ _ (notout_sZero_range0 4660), if_pos xyz_sZero_corrZero]

/-- C2 amended: the point has NaN coordinates iff range * 0.002 falls
outside [min_range, max_range] (the test is on the distance before the
per-laser distance correction) or the computed Cartesian coordinates
are all zero; the intensity is the high byte of the reflectivity in
every case. -/
theorem C2_range_window_amended (s : RawDataState) (az : ℕ)
    (m : raw_measure_t) (corr : PandarLaserCorrection) :
    ((computeXYZIR s az m corr).coords = none ↔
      outOfRange s m ∨ pointXYZ s az m corr = (0, 0, 0)) ∧
    (computeXYZIR s az m corr).intensity = m.reflectivity >>> 8 := by
  refine ⟨?_, computeXYZIR_intensity s az m corr⟩
  by_cases h : outOfRange s m
  · rw [computeXYZIR_out s az m corr h]
    simp [h]
  · rw [computeXYZIR_in s az m corr h]
    by_cases h0 : pointXYZ s az m corr = (0, 0, 0)
    · rw [if_pos h0]
      simp [h, h0]
    · rw [if_neg h0]
      simp only [h, false_or]
      constructor
      · intro hcontra
        exact absurd hcontra (by simp)
      · intro hcontra
        exact absurd hcontra h0

/-- C4: a measurement whose distance passes the range window but whose
computed coordinates are exactly the origin gets NaN coordinates, and
the converter therefore drops it. -/
theorem C4_origin_sentinel (s : RawDataState) (az : ℕ) (m : raw_measure_t)
    (corr : PandarLaserCorrection) (j : ℕ) (h : ¬ outOfRange s m)
    (h0 : pointXYZ s az m corr = (0, 0, 0)) :
    (computeXYZIR s az m corr).coords = none ∧ pointOf s az m corr j = none :=
  ⟨by rw [computeXYZIR_in s az m corr h, if_pos h0],
   pointOf_none_origin s az m corr j h h0⟩

theorem C4_origin_sentinel_witness :
    ¬ outOfRange sZero { range := 0, reflectivity := 4660 } ∧
    pointXYZ sZero 0 { range := 0, reflectivity := 4660 } corrZero = (0, 0, 0) ∧
    ((computeXYZIR sZero 0 { range := 0, reflectivity := 4660 } corrZero).coords = none ∧
      pointOf sZero 0 { range := 0, reflectivity := 4660 } corrZero 3 = none) :=
  ⟨notout_sZero_range0 4660, xyz_sZero_corrZero,
    C4_origin_sentinel sZero 0 _ corrZero 3 (notout_sZero_range0 4660) xyz_sZero_corrZero⟩

/-- C9: the angle-window fields computed by setParameters never reach
the corrector: two parameter sets sharing min_range and max_range but
with arbitrary different view directions and widths give identical
points on every input. -/
theorem C9_angle_window_unused (s : RawDataState)
    (mr Mr vd vw vd2 vw2 : ℝ) (az : ℕ) (m : raw_measure_t)
    (corr : PandarLaserCorrection) :
    computeXYZIR { s with config := setParameters s.config mr Mr vd vw } az m corr
      = computeXYZIR { s with config := setParameters s.config mr Mr vd2 vw2 } az m corr :=
  computeXYZIR_ranges_congr _ _ rfl rfl rfl rfl az m corr

/-- C5: the converter equals the spec-shaped cloud: it appends, block
major then channel minor, exactly the non-NaN points, and every
appended point has isSome coordinates and carries its laser channel
index as ring. -/
theorem C5_conversion_order :
    (∀ (s : RawDataState) (packet : raw_packet_t) (pc : List PPoint),
      toPointClouds s packet pc = pc ++ cloudOfPacketSpec s packet) ∧
    (∀ (s : RawDataState) (packet : raw_packet_t) (p : PPoint),
      p ∈ cloudOfPacketSpec s packet →
        p.coords.isSome = true ∧
        ∃ i, i < BLOCKS_PER_PACKET ∧ ∃ j, j < LASER_COUNT ∧ p.ring = j ∧
          pointOf s (packet.blocks.getD i default).azimuth
            ((packet.blocks.getD i default).measures.getD j default)
            (s.laser_corrections.getD j default) j = some p) := by
  refine ⟨toPointClouds_eq, ?_⟩
  intro s packet p hp
  rw [cloudOfPacketSpec] at hp
  obtain ⟨i, hi, hp2⟩ := List.mem_flatMap.1 hp
  obtain ⟨j, hj, hpj⟩ := List.mem_filterMap.1 hp2
  rw [List.mem_range] at hi hj
  have hpj2 := hpj
  rw [pointOf] at hpj2
  rcases hc : (computeXYZIR s (packet.blocks.getD i default).azimuth
      ((packet.blocks.getD i default).measures.getD j default)
      (s.laser_corrections.getD j default)).coords with _ | v
  · rw [hc] at hpj2
    simp at hpj2
  · rw [hc] at hpj2
    simp at hpj2
    refine ⟨?_, i, hi, j, hj, ?_, hpj⟩
    · rw [← hpj2]
      rfl
    · rw [← hpj2]

theorem C5_conversion_order_witness :
    (toPointClouds sZero pktEmpty [] = [] ++ cloudOfPacketSpec sZero pktEmpty) ∧
    (ptV.coords.isSome = true ∧
      ∃ i, i < BLOCKS_PER_PACKET ∧ ∃ j, j < LASER_COUNT ∧ ptV.ring = j ∧
        pointOf sZero (pktEmpty.blocks.getD i default).azimuth
          ((pktEmpty.blocks.getD i default).measures.getD j default)
          (sZero.laser_corrections.getD j default) j = some ptV) := by
  have hpt : pointOf sZero (pktEmpty.blocks.getD 0 default).azimuth
      ((pktEmpty.blocks.getD 0 default).measures.getD 0 default)
      (sZero.laser_corrections.getD 0 default) 0 = some ptV := by
    show pointOf sZero 0 { range := 0, reflectivity := 0 } corrVert 0 = some ptV
    rw [pointOf_eval sZero 0 _ corrVert 0 (0, 0, 1) (notout_sZero_range0 0)
      xyz_sZero_corrVert (by norm_num [Prod.ext_iff])]
    rfl
  have hmem : ptV ∈ cloudOfPacketSpec sZero pktEmpty := by
    rw [cloudOfPacketSpec]
    exact List.mem_flatMap.2 ⟨0, by simp [BLOCKS_PER_PACKET],
      List.mem_filterMap.2 ⟨0, by simp [LASER_COUNT], hpt⟩⟩
  exact ⟨C5_conversion_order.1 sZero pktEmpty [],
    C5_conversion_order.2 sZero pktEmpty ptV hmem⟩

/-- C7 as stated is false: with the window [0, 100] and a laser with a
nonzero vertical offset, the zeroed measurement (0, 0) passes the range
window and produces the real point (0, 0, 1), which the converter
appends. -/
theorem C7_zeroed_counterexample :
    (computeXYZIR sZero 0 { range := 0, reflectivity := 0 } corrVert).coords
      = some (0, 0, 1) ∧
    pointOf sZero 0 { range := 0, reflectivity := 0 } corrVert 0 = some ptV := by
  constructor
  · rw [computeXYZIR_in _ _ _ _ (notout_sZero_range0 0), xyz_sZero_corrVert,
      if_neg (by norm_num [Prod.ext_iff])]
  · rw [pointOf_eval sZero 0 _ corrVert 0 (0, 0, 1) (notout_sZero_range0 0)
      xyz_sZero_corrVert (by norm_num [Prod.ext_iff])]
    rfl

/-- C7 amended: provided the configured window excludes zero distance
(0 < min_range), every measurement zeroed during parse yields a NaN
point in the correction step and is dropped by the converter; and a
correctly sized packet always parses, whatever its content. -/
theorem C7_zeroed_excluded :
    (∀ (s : RawDataState) (az : ℕ) (corr : PandarLaserCorrection) (j : ℕ),
      0 < s.config.min_range →
      (computeXYZIR s az { range := 0, reflectivity := 0 } corr).coords = none ∧
      pointOf s az { range := 0, reflectivity := 0 } corr j = none) ∧
    (∀ buf : ℕ → ℕ, (parseRawData buf PACKET_SIZE).isSome = true) := by
  constructor
  · intro s az corr j hmin
    have hout : outOfRange s { range := 0, reflectivity := 0 } := by
      rw [outOfRange]
      left
      simpa using hmin
    exact ⟨by rw [computeXYZIR_out _ _ _ _ hout],
      pointOf_none_out s az _ corr j hout⟩
  · intro buf
    rw [parseRawData_eq buf]
    rfl

theorem C7_zeroed_excluded_witness :
    (0 : ℝ) < sHalf.config.min_range ∧
    ((computeXYZIR sHalf 0 { range := 0, reflectivity := 0 } corrZero).coords = none ∧
      pointOf sHalf 0 { range := 0, reflectivity := 0 } corrZero 0 = none) := by
  have h : (0 : ℝ) < sHalf.config.min_range := by norm_num [sHalf, cfgHalf]
  exact ⟨h, C7_zeroed_excluded.1 sHalf 0 corrZero 0 h⟩

/-- C8: the setup tables have one entry per azimuth unit (36000); entry
a holds exactly the cosine and the sine of a * 0.01 degrees in radians;
and with azimuthCorrection = 0 the corrector takes its azimuth cosine
and sine from the lookup tables at the block azimuth: its output
depends on them only through the tables at that index. -/
theorem C8_lookup_tables :
    setupCosTable.length = ROTATION_MAX_UNITS ∧
    setupSinTable.length = ROTATION_MAX_UNITS ∧
    (∀ a, a < ROTATION_MAX_UNITS →
      setupCosTable.getD a 0 = Real.cos ((a : ℝ) * 0.01 * (Real.pi / 180)) ∧
      setupSinTable.getD a 0 = Real.sin ((a : ℝ) * 0.01 * (Real.pi / 180))) ∧
    (∀ (s t : RawDataState) (az : ℕ) (m : raw_measure_t)
        (corr : PandarLaserCorrection),
      s.config = t.config →
      s.cos_lookup_table az = t.cos_lookup_table az →
      s.sin_lookup_table az = t.sin_lookup_table az →
      corr.azimuthCorrection = 0 →
      computeXYZIR s az m corr = computeXYZIR t az m corr) := by
  refine ⟨by simp [setupCosTable], by simp [setupSinTable], ?_, ?_⟩
  · intro a ha
    constructor
    · rw [setupCosTable, getD_map_range _ _ ha]
      exact congrArg Real.cos (by rw [fromDegrees]; ring)
    · rw [setupSinTable, getD_map_range _ _ ha]
      exact congrArg Real.sin (by rw [fromDegrees]; ring)
  · intro s t az m corr hcfg hcos hsin hz
    exact computeXYZIR_table_congr s t az m corr hcfg hcos hsin hz

theorem C8_lookup_tables_witness :
    ((0 : ℕ) < ROTATION_MAX_UNITS ∧
      setupCosTable.getD 0 0 = Real.cos (((0 : ℕ) : ℝ) * 0.01 * (Real.pi / 180))) ∧
    computeXYZIR sHalf 0 { range := 0, reflectivity := 0 } corrUnit
      = computeXYZIR sHalf 0 { range := 0, reflectivity := 0 } corrUnit := by
  have h : (0 : ℕ) < ROTATION_MAX_UNITS := by norm_num [ROTATION_MAX_UNITS]
  exact ⟨⟨h, (C8_lookup_tables.2.2.1 0 h).1⟩,
    C8_lookup_tables.2.2.2 sHalf sHalf 0 _ corrUnit rfl rfl rfl rfl⟩

/-- C1: the length check itself holds (parseRawData returns the error
without producing a packet), but unpack ignores that error and still
converts the uninitialized local packet, so a wrong-sized buffer can
append points: with leftover stack contents stalePacket, unpacking a
zero-length buffer appends a point. -/
theorem C1_unpack_ignores_size_error :
    parseRawData bufZero 0 = none ∧
    unpack sHalf stalePacket bufZero 0 [] ≠ [] := by
  have hne : (0 : ℕ) ≠ PACKET_SIZE := by
    norm_num [PACKET_SIZE, BLOCKS_PER_PACKET, SOB_ANGLE_SIZE, LASER_COUNT,
      RAW_MEASURE_SIZE, RESERVE_SIZE, REVOLUTION_SIZE, TIMESTAMP_SIZE,
      FACTORY_ID_SIZE]
  have hparse : parseRawData bufZero 0 = none := by
    rw [parseRawData, if_pos hne]
  refine ⟨hparse, ?_⟩
  have hpt : pointOf sHalf (stalePacket.blocks.getD 0 default).azimuth
      ((stalePacket.blocks.getD 0 default).measures.getD 0 default)
      (sHalf.laser_corrections.getD 0 default) 0
      = some { coords := some (0, 50, 0), intensity := 18, ring := 0 } := by
    show pointOf sHalf 0 { range := 25000, reflectivity := 4660 } corrUnit 0
      = some { coords := some (0, 50, 0), intensity := 18, ring := 0 }
    rw [pointOf_eval sHalf 0 _ corrUnit 0 (0, 50, 0) notout_half_25000
      xyz_half_25000 (by norm_num [Prod.ext_iff])]
    rfl
  have hmem : ({ coords := some (0, 50, 0), intensity := 18, ring := 0 } : PPoint)
      ∈ cloudOfPacketSpec sHalf stalePacket := by
    rw [cloudOfPacketSpec]
    exact List.mem_flatMap.2 ⟨0, by simp [BLOCKS_PER_PACKET],
      List.mem_filterMap.2 ⟨0, by simp [LASER_COUNT], hpt⟩⟩
  show toPointClouds sHalf ((parseRawData bufZero 0).getD stalePacket) [] ≠ []
  rw [hparse, Option.getD_none, toPointClouds_eq, List.nil_append]
  exact List.ne_nil_of_mem hmem

/-- C10: the parser puts no bound on the 16-bit azimuth: a correctly
sized buffer can carry azimuth 65535, while the lookup tables have only
ROTATION_MAX_UNITS = 36000 meaningful entries; with azimuthCorrection 0
the corrector indexes the tables at that raw azimuth, so its output
depends on table contents beyond index 36000: two states equal below
36000 give different points. -/
theorem C10_azimuth_out_of_bounds :
    (∃ p, parseRawData bufAz PACKET_SIZE = some p ∧
      (p.blocks.getD 0 default).azimuth = 65535) ∧
    ROTATION_MAX_UNITS ≤ 65535 ∧
    sHalf.config = sSpike.config ∧
    tablesAgreeBelow sHalf sSpike ROTATION_MAX_UNITS ∧
    computeXYZIR sHalf 65535 { range := 25000, reflectivity := 4660 } corrUnit
      ≠ computeXYZIR sSpike 65535 { range := 25000, reflectivity := 4660 } corrUnit := by
  refine ⟨⟨_, parseRawData_eq bufAz, ?_⟩,
    by norm_num [ROTATION_MAX_UNITS], rfl, ?_, ?_⟩
  · rw [getD_map_range _ _ (by norm_num : (0 : ℕ) < 6)]
    decide
  · intro a ha
    refine ⟨rfl, ?_⟩
    show (0 : ℝ) = if a = 65535 then 1 else 0
    rw [if_neg (by simp only [ROTATION_MAX_UNITS] at ha; omega)]
  · have hA : computeXYZIR sHalf 65535 { range := 25000, reflectivity := 4660 } corrUnit
        = { coords := some (0, 50, 0), intensity := 4660 >>> 8, ring := 0 } := by
      rw [computeXYZIR_in _ _ _ _ notout_half_25000, xyz_half_65535,
        if_neg (by norm_num [Prod.ext_iff])]
    have hB : computeXYZIR sSpike 65535 { range := 25000, reflectivity := 4660 } corrUnit
        = { coords := some (50, 50, 0), intensity := 4660 >>> 8, ring := 0 } := by
      rw [computeXYZIR_in _ _ _ _ notout_spike_25000, xyz_spike_65535,
        if_neg (by norm_num [Prod.ext_iff])]
    rw [hA, hB]
    intro hEq
    have hco := congrArg PPoint.coords hEq
    rw [Option.some.injEq, Prod.mk.injEq] at hco
    norm_num at hco
